import Mathlib

/-!
Verification of the rollback/resimulation engine (src/lib.rs).

The engine is shallowly embedded: the entity world, the resource set and the
deferred mutation operations are abstract type parameters `W`, `R`, `Op`; the
external collaborators (the SimulationStep schedule, the reflection-based
world copier, the per-resource copy closures) are explicit function
parameters, collected in `SimCtx`.  Rust panics (`unwrap`, `expect`,
arithmetic underflow with overflow checks on, `%` by zero) are modelled as
`Option.none` results.  Every operation additionally returns a trace of
`REvent`s recording, in execution order, the observable actions of the
engine (applying deferred changes, applying resource overrides, building a
snapshot, running the simulation step, restoring a snapshot); the temporal
claims are stated over this trace.
-/

namespace BevyRollback

/-- `enum RollbackState` (src/lib.rs lines 337-343). -/
inductive RollbackState where
  | Rollback (frame : Nat)
  | Rolledback (frame : Nat)
deriving DecidableEq, Repr

/-- `enum RollbackError` (src/lib.rs lines 345-349). -/
inductive RollbackError where
  | FrameTimeout
  | ResourceNotFound
deriving DecidableEq, Repr

/-- Observable actions of the engine, recorded in execution order. -/
inductive REvent where
  /-- the buffered change batch for a frame was applied to the live state -/
  | applyChanges (frame : Nat)
  /-- the override copy functions were applied to the live resources,
      reading from the stored resources at the given ring slot -/
  | applyOverrides (frame : Nat) (slot : Nat)
  /-- a resource snapshot was stored at the given ring slot -/
  | storeResources (slot : Nat)
  /-- a world snapshot was stored at the given ring slot -/
  | storeWorld (slot : Nat)
  /-- the logic schedule (SimulationStep) ran for the given frame -/
  | simStep (frame : Nat)
  /-- a stored snapshot was taken out of the given ring slot and installed
      as the live state -/
  | restore (slot : Nat)
deriving DecidableEq, Repr

/-- External collaborators of the engine: how a deferred operation acts on
the live state, the SimulationStep schedule, the reflection-based deep copy
of a world (`store_new_world`'s archetype walk), and `Resources::default()`. -/
structure SimCtx (W R Op : Type) where
  applyOp : Op → W → R → W × R
  simStep : W → R → W × R
  cloneWorld : W → W
  emptyR : R

/-- `struct RollbackBuffer` (src/lib.rs lines 353-369).  The type-erased
resource copy closures of `resource_rollback` / `resource_override` are
modelled as pairs of a type tag (the `TypeId` of the tracked resource type)
and the copy function `(dest, src) -> dest'` the closure denotes. -/
structure RollbackBuffer (W R Op : Type) where
  newest_frame : Nat
  rollback_state : RollbackState
  current_world : W
  current_resources : R
  buffered_changes : List (Nat × List Op)
  past_worlds : List (Option W)
  past_resources : List (Option R)
  resource_rollback : List (Nat × (R → R → R))
  resource_override : List (Nat × (R → R → R))

variable {W R Op : Type}

/-- `RollbackBuffer::new` (src/lib.rs lines 372-390); `w0`, `r0` stand for
`World::new()` and `Resources::default()`. -/
def RollbackBuffer.new (w0 : W) (r0 : R) (buffer_size : Nat) : RollbackBuffer W R Op :=
  { newest_frame := 0
    rollback_state := RollbackState.Rolledback 0
    current_world := w0
    current_resources := r0
    buffered_changes := []
    past_worlds := List.replicate buffer_size none
    past_resources := List.replicate buffer_size none
    resource_rollback := []
    resource_override := [] }

/-- Rust `usize` subtraction under the overflow-checking (debug) profile:
underflow is a panic, modelled as `none`. -/
def checkedSub (a b : Nat) : Option Nat :=
  if b ≤ a then some (a - b) else none

/-- `HashMap::remove(&state)` on the buffered-changes map. -/
def removeChange (m : List (Nat × List Op)) (frame : Nat) : List (Nat × List Op) :=
  m.filter (fun e => e.1 != frame)

/-- `buffered_changes.entry(frame)`: append `op` to the existing batch, or
insert a fresh one-element batch (src/lib.rs lines 396-403). -/
def addChange (m : List (Nat × List Op)) (frame : Nat) (op : Op) : List (Nat × List Op) :=
  if (List.lookup frame m).isSome then
    m.map (fun e => if e.1 = frame then (e.1, e.2 ++ [op]) else e)
  else
    (frame, [op]) :: m

/-- A `SystemStage` of buffered changes runs its systems in insertion order. -/
def applyBatch (ctx : SimCtx W R Op) (ops : List Op) (w : W) (r : R) : W × R :=
  ops.foldl (fun p op => ctx.applyOp op p.1 p.2) (w, r)

/-- The live state after applying the buffered change batch for `state`, if
one is present (src/lib.rs lines 170-181). -/
def run_changes (ctx : SimCtx W R Op) (buf : RollbackBuffer W R Op) (state : Nat) : W × R :=
  match List.lookup state buf.buffered_changes with
  | some ops => applyBatch ctx ops buf.current_world buf.current_resources
  | none => (buf.current_world, buf.current_resources)

/-- The override loop (src/lib.rs lines 183-186): each registered override
closure copies from the stored past resources into the live resources, in
registration order (left fold). -/
def apply_overrides (ov : List (Nat × (R → R → R))) (r past : R) : R :=
  ov.foldl (fun acc e => e.2 acc past) r

/-- `store_new_resources` (src/lib.rs lines 480-503): build a fresh resource
set by running every `resource_rollback` copy function from the live
resources into `Resources::default()`, and store it at slot
`state % past_resources.len()`.  The modulo panics when the ring is empty. -/
def store_new_resources (ctx : SimCtx W R Op) (buf : RollbackBuffer W R Op) (state : Nat) :
    Option (RollbackBuffer W R Op) :=
  if buf.past_resources.length = 0 then none
  else
    let newR := buf.resource_rollback.foldl (fun acc e => e.2 acc buf.current_resources) ctx.emptyR
    let pos := state % buf.past_resources.length
    some { buf with past_resources := buf.past_resources.set pos (some newR) }

/-- `store_new_world` (src/lib.rs lines 420-478): deep-copy the live world
through the type registry and store it at slot `state % past_resources.len()`
(the source computes the slot from the resource ring's length); indexing
`past_worlds` out of bounds panics. -/
def store_new_world (ctx : SimCtx W R Op) (buf : RollbackBuffer W R Op) (state : Nat) :
    Option (RollbackBuffer W R Op) :=
  if buf.past_resources.length = 0 then none
  else
    let newW := ctx.cloneWorld buf.current_world
    let pos := state % buf.past_resources.length
    if pos < buf.past_worlds.length then
      some { buf with past_worlds := buf.past_worlds.set pos (some newW) }
    else none

/-- `RollbackStage::run_once` (src/lib.rs lines 161-205), for frame `state`:
remove and apply the buffered change batch, apply the overrides reading from
slot `state % capacity` (the per-iteration `unwrap` panics only when the
override list is non-empty and the slot is vacant), store the resource and
world snapshots at slot `(state+1) % capacity`, and finally run the logic
schedule (SimulationStep) on the live state. -/
def run_once (ctx : SimCtx W R Op) (buf : RollbackBuffer W R Op) (state : Nat) :
    Option (RollbackBuffer W R Op × List REvent) :=
  if buf.past_resources.length = 0 then none
  else
    let target := state % buf.past_resources.length
    let ev1 : List REvent :=
      match List.lookup state buf.buffered_changes with
      | some _ => [REvent.applyChanges state]
      | none => []
    let wr := run_changes ctx buf state
    let buf1 : RollbackBuffer W R Op :=
      { buf with buffered_changes := removeChange buf.buffered_changes state }
    let ov : Option (R × List REvent) :=
      if buf1.resource_override.isEmpty then some (wr.2, [])
      else
        match buf1.past_resources.get? target with
        | some (some past) =>
            some (apply_overrides buf1.resource_override wr.2 past,
                  [REvent.applyOverrides state target])
        | _ => none
    match ov with
    | none => none
    | some (r2, ev2) =>
      let buf2 := { buf1 with current_world := wr.1, current_resources := r2 }
      match store_new_resources ctx buf2 (state + 1) with
      | none => none
      | some buf3 =>
        match store_new_world ctx buf3 (state + 1) with
        | none => none
        | some buf4 =>
          let swr := ctx.simStep buf4.current_world buf4.current_resources
          some ({ buf4 with current_world := swr.1, current_resources := swr.2 },
            ev1 ++ ev2 ++
              [REvent.storeResources ((state + 1) % buf.past_resources.length),
               REvent.storeWorld ((state + 1) % buf.past_resources.length),
               REvent.simStep state])

/-- The `RollbackState::Rollback(state)` arm of `RollbackStage::run_rollback`
(src/lib.rs lines 219-251): compute `target = newest_frame % capacity` (note:
the source indexes the ring by `newest_frame`, not by the rollback target
frame), `take()` the world and resource snapshots out of that slot (panic if
vacant), install them as the live state, and transition to
`Rolledback(state)`. -/
def rollback_restore (buf : RollbackBuffer W R Op) (state : Nat) :
    Option (RollbackBuffer W R Op) :=
  if buf.past_worlds.length = 0 then none
  else
    let target := buf.newest_frame % buf.past_worlds.length
    match buf.past_worlds.get? target with
    | some (some w) =>
      let buf1 := { buf with
        current_world := w
        past_worlds := buf.past_worlds.set target none }
      match buf1.past_resources.get? target with
      | some (some r) =>
        some { buf1 with
          current_resources := r
          past_resources := buf1.past_resources.set target none
          rollback_state := RollbackState.Rolledback state }
      | _ => none
    | _ => none

/-- The `loop` of `RollbackStage::run_rollback` (src/lib.rs lines 207-272),
written with an explicit iteration budget `fuel` (the loop performs at most
`newest_frame + 2` iterations, see `run_rollback` below, so a large enough
budget makes this exactly the source loop).  `none` is a panic or an
exhausted budget. -/
def run_rollback_loop (ctx : SimCtx W R Op) :
    Nat → RollbackBuffer W R Op → Option (RollbackBuffer W R Op × List REvent)
  | 0, _ => none
  | fuel + 1, buf =>
    match buf.rollback_state with
    | RollbackState.Rollback state =>
      match rollback_restore buf state with
      | none => none
      | some buf1 =>
        match run_rollback_loop ctx fuel buf1 with
        | none => none
        | some (b, tr) =>
            some (b, REvent.restore (buf.newest_frame % buf.past_worlds.length) :: tr)
    | RollbackState.Rolledback state =>
      match run_once ctx buf state with
      | none => none
      | some (buf2, tr1) =>
        if buf2.newest_frame ≤ state then
          some ({ buf2 with rollback_state := RollbackState.Rolledback (state + 1) }, tr1)
        else
          match run_rollback_loop ctx fuel
              { buf2 with rollback_state := RollbackState.Rolledback (state + 1) } with
          | none => none
          | some (b, tr2) => some (b, tr1 ++ tr2)

/-- `RollbackStage::run_rollback` (src/lib.rs lines 207-272).  From a state
`Rollback f` or `Rolledback f` with `f ≤ newest_frame + 1` the loop breaks
after at most `newest_frame + 2` iterations (one restore plus one `run_once`
per frame up to `newest_frame`), so the budget `2 * newest_frame + 4` is
never the reason for a `none` result. -/
def run_rollback (ctx : SimCtx W R Op) (buf : RollbackBuffer W R Op) :
    Option (RollbackBuffer W R Op × List REvent) :=
  run_rollback_loop ctx (2 * buf.newest_frame + 4) buf

/-- One tick granted by the run criteria (`Stage::run` for `RollbackStage`,
src/lib.rs lines 309-335; `advance_frame` in the external interface):
increment `newest_frame`, then run the replay loop to quiescence. -/
def advance_frame (ctx : SimCtx W R Op) (buf : RollbackBuffer W R Op) :
    Option (RollbackBuffer W R Op × List REvent) :=
  run_rollback ctx { buf with newest_frame := buf.newest_frame + 1 }

/-- A sequence of `n` ticks with no `schedule_change` in between. -/
def run_ticks (ctx : SimCtx W R Op) : Nat → RollbackBuffer W R Op →
    Option (RollbackBuffer W R Op)
  | 0, buf => some buf
  | n + 1, buf =>
    match advance_frame ctx buf with
    | none => none
    | some (b, _) => run_ticks ctx n b

/-- `Stage::initialize` for `RollbackStage` (src/lib.rs lines 299-304): store
the initial live state as the snapshots of frame 0. -/
def initStage (ctx : SimCtx W R Op) (buf : RollbackBuffer W R Op) :
    Option (RollbackBuffer W R Op) :=
  match store_new_resources ctx buf 0 with
  | none => none
  | some b => store_new_world ctx b 0

/-- `RollbackBuffer::past_frame_change` (src/lib.rs lines 392-411), the
`schedule_change` of the spec.  Returns `none` on panic (underflow of
`newest_frame - frame` under the overflow-checking profile); otherwise
`some (err?, buffer)` where `err?` is the returned `Result` error and
`buffer` the (possibly mutated) buffer. -/
def past_frame_change (buf : RollbackBuffer W R Op) (frame : Nat) (op : Op) :
    Option (Option RollbackError × RollbackBuffer W R Op) :=
  match checkedSub buf.newest_frame frame with
  | none => none
  | some d =>
    if buf.past_worlds.length ≤ d then
      some (some RollbackError.FrameTimeout, buf)
    else
      some (none,
        { buf with
          buffered_changes := addChange buf.buffered_changes frame op
          rollback_state :=
            match buf.rollback_state with
            | RollbackState.Rolledback _ => RollbackState.Rollback frame
            | RollbackState.Rollback cur =>
              if frame < cur then RollbackState.Rollback frame
              else RollbackState.Rollback cur })

/-- A setup-time registration call on the `ResourceTracker` interface
(src/lib.rs lines 505-552): `ty` is the `TypeId` of the registered resource
type, `ins` the `current_resources.insert(resource)` effect, `copy` the
generated copy closure for that type. -/
inductive TrackOp (R : Type) where
  | track (ty : Nat) (ins : R → R) (copy : R → R → R)
  | over (ty : Nat) (ins : R → R) (copy : R → R → R)

/-- `ResourceTracker::track_resource` (src/lib.rs lines 511-526): insert the
resource into the live resources and push its copy closure onto the
`resource_rollback` list. -/
def track_resource (buf : RollbackBuffer W R Op) (ty : Nat) (ins : R → R)
    (copy : R → R → R) : RollbackBuffer W R Op :=
  { buf with
    current_resources := ins buf.current_resources
    resource_rollback := buf.resource_rollback ++ [(ty, copy)] }

/-- `ResourceTracker::override_resource` (src/lib.rs lines 528-551): insert
the resource and push its copy closure onto both the `resource_rollback` and
the `resource_override` lists. -/
def override_resource (buf : RollbackBuffer W R Op) (ty : Nat) (ins : R → R)
    (copy : R → R → R) : RollbackBuffer W R Op :=
  { buf with
    current_resources := ins buf.current_resources
    resource_rollback := buf.resource_rollback ++ [(ty, copy)]
    resource_override := buf.resource_override ++ [(ty, copy)] }

/-- A sequence of setup-time registrations, applied in order. -/
def applyTrackOps (buf : RollbackBuffer W R Op) : List (TrackOp R) → RollbackBuffer W R Op
  | [] => buf
  | op :: ops =>
    applyTrackOps
      (match op with
       | TrackOp.track t i c => track_resource buf t i c
       | TrackOp.over t i c => override_resource buf t i c) ops

/-- Number of SimulationStep invocations recorded in a trace. -/
def countSimSteps (tr : List REvent) : Nat :=
  (tr.filter fun e => match e with | REvent.simStep _ => true | _ => false).length

/-- The frame argument carried by either variant of `RollbackState`. -/
def frameOf : RollbackState → Nat
  | RollbackState.Rollback f => f
  | RollbackState.Rolledback f => f

/-! ## Concrete instantiations used by witnesses and counterexamples -/

/-- A concrete collaborator set over `Nat` worlds and resources: a deferred
operation sets the world to its payload, the SimulationStep increments both
world and resources, the deep copy is the identity. -/
def natCtx : SimCtx Nat Nat Nat :=
  { applyOp := fun k _ r => (k, r)
    simStep := fun w r => (w + 1, r + 1)
    cloneWorld := fun w => w
    emptyR := 0 }

/-- A degenerate collaborator set over `Unit` state. -/
def unitCtx : SimCtx Unit Unit Unit :=
  { applyOp := fun _ _ _ => ((), ())
    simStep := fun _ _ => ((), ())
    cloneWorld := fun w => w
    emptyR := () }

/-- Freshly initialized engine over `Nat` state with capacity 2 (the result
of `RollbackBuffer::new 2` followed by `Stage::initialize`). -/
def bufInit : RollbackBuffer Nat Nat Nat :=
  { newest_frame := 0
    rollback_state := RollbackState.Rolledback 0
    current_world := 0
    current_resources := 0
    buffered_changes := []
    past_worlds := [some 0, none]
    past_resources := [some 0, none]
    resource_rollback := []
    resource_override := [] }

/-- Freshly initialized engine over `Unit` state with capacity 1. -/
def bufU : RollbackBuffer Unit Unit Unit :=
  { newest_frame := 0
    rollback_state := RollbackState.Rolledback 0
    current_world := ()
    current_resources := ()
    buffered_changes := []
    past_worlds := [some ()]
    past_resources := [some ()]
    resource_rollback := []
    resource_override := [] }

/-- The quiescent engine reached from `bufU` after one tick. -/
def bufUq : RollbackBuffer Unit Unit Unit :=
  { bufU with newest_frame := 1, rollback_state := RollbackState.Rolledback 2 }

/-- Engine paused in `Rollback 0` with `newest_frame = 2`, capacity 4, and
all three frames 0..2 stored, with pairwise distinct snapshot payloads. -/
def bufC1 : RollbackBuffer Nat Nat Nat :=
  { newest_frame := 2
    rollback_state := RollbackState.Rollback 0
    current_world := 99
    current_resources := 98
    buffered_changes := []
    past_worlds := [some 10, some 11, some 12, none]
    past_resources := [some 20, some 21, some 22, none]
    resource_rollback := []
    resource_override := [] }

/-- Engine about to replay frame 0 with live world 5, capacity 4. -/
def bufC2 : RollbackBuffer Nat Nat Nat :=
  { newest_frame := 0
    rollback_state := RollbackState.Rolledback 0
    current_world := 5
    current_resources := 7
    buffered_changes := []
    past_worlds := [none, none, none, none]
    past_resources := [none, none, none, none]
    resource_rollback := []
    resource_override := [] }

/-- The quiescent engine reached from `bufUq` after one more tick. -/
def bufUq2 : RollbackBuffer Unit Unit Unit :=
  { bufU with newest_frame := 2, rollback_state := RollbackState.Rolledback 3 }

/-- Engine with `newest_frame = 5`, capacity 4, pending rewind to frame 5. -/
def bufC5 : RollbackBuffer Unit Unit Unit :=
  { newest_frame := 5
    rollback_state := RollbackState.Rollback 5
    current_world := ()
    current_resources := ()
    buffered_changes := []
    past_worlds := [none, none, none, none]
    past_resources := [none, none, none, none]
    resource_rollback := []
    resource_override := [] }

/-- Engine with `newest_frame = 5`, capacity 4, quiescent (`Rolledback 6`). -/
def bufC5s : RollbackBuffer Unit Unit Unit :=
  { bufC5 with rollback_state := RollbackState.Rolledback 6 }

/-- Engine with `newest_frame = 3` and capacity 2, quiescent. -/
def bufC6 : RollbackBuffer Unit Unit Unit :=
  { newest_frame := 3
    rollback_state := RollbackState.Rolledback 4
    current_world := ()
    current_resources := ()
    buffered_changes := []
    past_worlds := [none, none]
    past_resources := [none, none]
    resource_rollback := []
    resource_override := [] }

/-- Engine about to replay frame 0 with one tracked-and-overridden resource
whose stored frame-0 snapshot value is 50. -/
def bufC7 : RollbackBuffer Nat Nat Nat :=
  { newest_frame := 0
    rollback_state := RollbackState.Rolledback 0
    current_world := 5
    current_resources := 7
    buffered_changes := []
    past_worlds := [none, none, none, none]
    past_resources := [some 50, none, none, none]
    resource_rollback := [(0, fun _ src => src)]
    resource_override := [(0, fun _ src => src)] }

/-- The engine produced by replaying frame 0 of `bufC7`: the override copied
50 over the live resources, the snapshot stores wrote slot 1, and the
SimulationStep advanced the live state to `(6, 51)`. -/
def bufC7r : RollbackBuffer Nat Nat Nat :=
  { newest_frame := 0
    rollback_state := RollbackState.Rolledback 0
    current_world := 6
    current_resources := 51
    buffered_changes := []
    past_worlds := [none, some 5, none, none]
    past_resources := [some 50, some 50, none, none]
    resource_rollback := [(0, fun _ src => src)]
    resource_override := [(0, fun _ src => src)] }

/-- The buffer built with `buffer_size = 0`. -/
def bufZ : RollbackBuffer Unit Unit Unit := RollbackBuffer.new () () 0

/-! ## Basic lemmas about the embedded operations -/

/-- `store_new_resources` only rewrites one slot of the resource ring. -/
theorem store_new_resources_fields {ctx : SimCtx W R Op} {buf b : RollbackBuffer W R Op}
    {s : Nat} (h : store_new_resources ctx buf s = some b) :
    b.newest_frame = buf.newest_frame ∧ b.rollback_state = buf.rollback_state ∧
    b.current_world = buf.current_world ∧ b.current_resources = buf.current_resources ∧
    b.past_worlds = buf.past_worlds ∧ b.buffered_changes = buf.buffered_changes ∧
    b.resource_rollback = buf.resource_rollback ∧
    b.resource_override = buf.resource_override := by
  unfold store_new_resources at h
  by_cases h0 : buf.past_resources.length = 0
  · simp [h0] at h
  · rw [if_neg h0] at h
    injection h with h
    subst h
    simp

/-- `store_new_world` only rewrites one slot of the world ring. -/
theorem store_new_world_fields {ctx : SimCtx W R Op} {buf b : RollbackBuffer W R Op}
    {s : Nat} (h : store_new_world ctx buf s = some b) :
    b.newest_frame = buf.newest_frame ∧ b.rollback_state = buf.rollback_state ∧
    b.current_world = buf.current_world ∧ b.current_resources = buf.current_resources ∧
    b.past_resources = buf.past_resources ∧ b.buffered_changes = buf.buffered_changes ∧
    b.resource_rollback = buf.resource_rollback ∧
    b.resource_override = buf.resource_override := by
  unfold store_new_world at h
  by_cases h0 : buf.past_resources.length = 0
  · simp [h0] at h
  · rw [if_neg h0] at h
    by_cases h1 : s % buf.past_resources.length < buf.past_worlds.length
    · rw [if_pos h1] at h
      injection h with h
      subst h
      simp
    · rw [if_neg h1] at h
      exact absurd h (by simp)

/-- Everything `run_once` does besides snapshotting and removing the change
batch: `newest_frame` and `rollback_state` are untouched (needed for the
termination of the replay loop and for the quiescence analysis). -/
theorem run_once_preserves {ctx : SimCtx W R Op} {buf b : RollbackBuffer W R Op}
    {f : Nat} {tr : List REvent} (h : run_once ctx buf f = some (b, tr)) :
    b.newest_frame = buf.newest_frame ∧ b.rollback_state = buf.rollback_state := by
  unfold run_once at h
  by_cases h0 : buf.past_resources.length = 0
  · simp [h0] at h
  · rw [if_neg h0] at h
    simp only [] at h
    split at h
    · exact absurd h (by simp)
    · rename_i r2ev hov
      split at h
      · exact absurd h (by simp)
      · rename_i buf3 hst
        split at h
        · exact absurd h (by simp)
        · rename_i buf4 hsw
          injection h with h
          have h1 := congrArg Prod.fst h
          simp only [] at h1
          subst h1
          have hr := store_new_resources_fields hst
          have hw := store_new_world_fields hsw
          constructor
          · simp [hw.1, hr.1]
          · simp [hw.2.1, hr.2.1]

/-- Full characterization of a successful `run_once` for frame `f`: the trace
is the (possible) change application, then the (possible) override
application reading slot `f % capacity`, then the two snapshot stores at slot
`(f+1) % capacity`, then the SimulationStep — and the final live state is the
SimulationStep applied to the post-change, post-override live state. -/
theorem run_once_spec {ctx : SimCtx W R Op} {buf b : RollbackBuffer W R Op}
    {f : Nat} {tr : List REvent} (h : run_once ctx buf f = some (b, tr)) :
    ∃ c o,
      tr = c ++ o ++ [REvent.storeResources ((f + 1) % buf.past_resources.length),
                      REvent.storeWorld ((f + 1) % buf.past_resources.length),
                      REvent.simStep f] ∧
      (c = [] ∨ c = [REvent.applyChanges f]) ∧
      (c = [REvent.applyChanges f] ↔ (List.lookup f buf.buffered_changes).isSome) ∧
      (o = [] ∨ o = [REvent.applyOverrides f (f % buf.past_resources.length)]) ∧
      (o = [REvent.applyOverrides f (f % buf.past_resources.length)] ↔
        buf.resource_override ≠ []) ∧
      (buf.resource_override = [] →
        b.current_world = (ctx.simStep (run_changes ctx buf f).1 (run_changes ctx buf f).2).1 ∧
        b.current_resources = (ctx.simStep (run_changes ctx buf f).1 (run_changes ctx buf f).2).2) ∧
      (buf.resource_override ≠ [] →
        ∃ past, buf.past_resources.get? (f % buf.past_resources.length) = some (some past) ∧
          b.current_world = (ctx.simStep (run_changes ctx buf f).1
            (apply_overrides buf.resource_override (run_changes ctx buf f).2 past)).1 ∧
          b.current_resources = (ctx.simStep (run_changes ctx buf f).1
            (apply_overrides buf.resource_override (run_changes ctx buf f).2 past)).2) := by
  by_cases h0 : buf.past_resources.length = 0
  · rw [run_once, if_pos h0] at h
    exact absurd h (by simp)
  · by_cases hpw : (f + 1) % buf.past_resources.length < buf.past_worlds.length
    · cases hove : buf.resource_override with
      | nil =>
        cases hc : List.lookup f buf.buffered_changes with
        | none =>
          refine ⟨[], [], ?_⟩
          simp only [run_once, if_neg h0, hc, hove, store_new_resources,
            store_new_world, List.length_set, List.isEmpty_nil, if_true,
            if_pos hpw] at h
          injection h with h
          have h1 := congrArg Prod.fst h
          have h2 := congrArg Prod.snd h
          simp only [] at h1 h2
          subst h1
          subst h2
          simp [hc]
        | some ops =>
          refine ⟨[REvent.applyChanges f], [], ?_⟩
          simp only [run_once, if_neg h0, hc, hove, store_new_resources,
            store_new_world, List.length_set, List.isEmpty_nil, if_true,
            if_pos hpw] at h
          injection h with h
          have h1 := congrArg Prod.fst h
          have h2 := congrArg Prod.snd h
          simp only [] at h1 h2
          subst h1
          subst h2
          simp [hc]
      | cons hd tl =>
        cases hsl : buf.past_resources.get? (f % buf.past_resources.length) with
        | none =>
          rw [run_once, if_neg h0] at h
          simp only [hove, hsl, List.isEmpty_cons, if_false] at h
          exact absurd h (by simp)
        | some slot =>
          cases slot with
          | none =>
            rw [run_once, if_neg h0] at h
            simp only [hove, hsl, List.isEmpty_cons, if_false] at h
            exact absurd h (by simp)
          | some past =>
            cases hc : List.lookup f buf.buffered_changes with
            | none =>
              refine ⟨[], [REvent.applyOverrides f (f % buf.past_resources.length)], ?_⟩
              simp only [run_once, if_neg h0, hc, hove, hsl, store_new_resources,
                store_new_world, List.length_set, List.isEmpty_cons, if_false,
                if_pos hpw] at h
              injection h with h
              have h1 := congrArg Prod.fst h
              have h2 := congrArg Prod.snd h
              simp only [] at h1 h2
              subst h1
              subst h2
              refine ⟨by simp, by simp, by simp [hc], by simp, by simp [hove],
                by simp [hove], ?_⟩
              intro hne
              exact ⟨past, by simp [hsl], by simp [hove], by simp [hove]⟩
            | some ops =>
              refine ⟨[REvent.applyChanges f],
                [REvent.applyOverrides f (f % buf.past_resources.length)], ?_⟩
              simp only [run_once, if_neg h0, hc, hove, hsl, store_new_resources,
                store_new_world, List.length_set, List.isEmpty_cons, if_false,
                if_pos hpw] at h
              injection h with h
              have h1 := congrArg Prod.fst h
              have h2 := congrArg Prod.snd h
              simp only [] at h1 h2
              subst h1
              subst h2
              refine ⟨by simp, by simp, by simp [hc], by simp, by simp [hove],
                by simp [hove], ?_⟩
              intro hne
              exact ⟨past, by simp [hsl], by simp [hove], by simp [hove]⟩
    · rw [run_once, if_neg h0] at h
      simp only [store_new_resources, store_new_world, List.length_set,
        if_neg h0, if_neg hpw] at h
      split at h <;> simp at h

/-- A successful restore keeps `newest_frame` and transitions to
`Rolledback state`. -/
theorem rollback_restore_fields {buf b : RollbackBuffer W R Op} {s : Nat}
    (h : rollback_restore buf s = some b) :
    b.newest_frame = buf.newest_frame ∧
    b.rollback_state = RollbackState.Rolledback s := by
  by_cases h0 : buf.past_worlds.length = 0
  · rw [rollback_restore, if_pos h0] at h
    exact absurd h (by simp)
  · cases hw : buf.past_worlds.get? (buf.newest_frame % buf.past_worlds.length) with
    | none =>
      simp only [rollback_restore, if_neg h0, hw] at h
      exact Option.noConfusion h
    | some w0 =>
      cases w0 with
      | none =>
        simp only [rollback_restore, if_neg h0, hw] at h
        exact Option.noConfusion h
      | some w =>
        cases hr : buf.past_resources.get? (buf.newest_frame % buf.past_worlds.length) with
        | none =>
          simp only [rollback_restore, if_neg h0, hw, hr] at h
          exact Option.noConfusion h
        | some r0 =>
          cases r0 with
          | none =>
            simp only [rollback_restore, if_neg h0, hw, hr] at h
            exact Option.noConfusion h
          | some r =>
            simp only [rollback_restore, if_neg h0, hw, hr, Option.some_inj] at h
            subst h
            simp

/-- Every successful `run_once` performs exactly one SimulationStep. -/
theorem run_once_count {ctx : SimCtx W R Op} {buf b : RollbackBuffer W R Op}
    {f : Nat} {tr : List REvent} (h : run_once ctx buf f = some (b, tr)) :
    countSimSteps tr = 1 := by
  obtain ⟨c, o, htr, hc, -, ho, -, -, -⟩ := run_once_spec h
  subst htr
  rcases hc with hc | hc <;> rcases ho with ho | ho <;> subst hc <;> subst ho <;>
    simp [countSimSteps]

/-- Whenever the replay loop terminates normally from a state whose frame is
at most `newest_frame`, it ends in `Rolledback (newest_frame + 1)` with
`newest_frame` unchanged. -/
theorem run_rollback_loop_final {ctx : SimCtx W R Op} :
    ∀ (fuel : Nat) (buf b : RollbackBuffer W R Op) (tr : List REvent),
    run_rollback_loop ctx fuel buf = some (b, tr) →
    frameOf buf.rollback_state ≤ buf.newest_frame →
    b.rollback_state = RollbackState.Rolledback (b.newest_frame + 1) ∧
    b.newest_frame = buf.newest_frame := by
  intro fuel
  induction fuel with
  | zero => intro buf b tr h _; exact absurd h (by simp [run_rollback_loop])
  | succ fuel ih =>
    intro buf b tr h hle
    cases hst : buf.rollback_state with
    | Rollback state =>
      cases hres : rollback_restore buf state with
      | none =>
        simp only [run_rollback_loop, hst, hres] at h
        exact Option.noConfusion h
      | some buf1 =>
        cases hrec : run_rollback_loop ctx fuel buf1 with
        | none =>
          simp only [run_rollback_loop, hst, hres, hrec] at h
          exact Option.noConfusion h
        | some p =>
          obtain ⟨b2, tr2⟩ := p
          simp only [run_rollback_loop, hst, hres, hrec, Option.some_inj] at h
          have h1 := congrArg Prod.fst h
          simp only [] at h1
          subst h1
          obtain ⟨hnf, hrs⟩ := rollback_restore_fields hres
          have hle1 : frameOf buf1.rollback_state ≤ buf1.newest_frame := by
            rw [hnf, hrs]
            simpa [frameOf, hst] using hle
          obtain ⟨hb1, hb2⟩ := ih buf1 b2 tr2 hrec hle1
          exact ⟨hb1, hb2.trans hnf⟩
    | Rolledback state =>
      cases hro : run_once ctx buf state with
      | none =>
        simp only [run_rollback_loop, hst, hro] at h
        exact Option.noConfusion h
      | some p =>
        obtain ⟨buf2, tr1⟩ := p
        obtain ⟨hnf2, hrs2⟩ := run_once_preserves hro
        have hle2 : state ≤ buf.newest_frame := by simpa [frameOf, hst] using hle
        by_cases hbr : buf2.newest_frame ≤ state
        · simp only [run_rollback_loop, hst, hro, if_pos hbr, Option.some_inj] at h
          have h1 := congrArg Prod.fst h
          simp only [] at h1
          subst h1
          have heq : state = buf.newest_frame := le_antisymm hle2 (hnf2 ▸ hbr)
          exact ⟨by simp [hnf2, heq], by simp [hnf2]⟩
        · cases hrec : run_rollback_loop ctx fuel
              { buf2 with rollback_state := RollbackState.Rolledback (state + 1) } with
          | none =>
            simp only [run_rollback_loop, hst, hro, if_neg hbr, hrec] at h
            exact Option.noConfusion h
          | some p2 =>
            obtain ⟨b2, tr2⟩ := p2
            simp only [run_rollback_loop, hst, hro, if_neg hbr, hrec,
              Option.some_inj] at h
            have h1 := congrArg Prod.fst h
            simp only [] at h1
            subst h1
            have hlt : state < buf2.newest_frame := lt_of_not_le hbr
            have hle1 : frameOf ({ buf2 with
                rollback_state := RollbackState.Rolledback (state + 1) }).rollback_state ≤
                ({ buf2 with
                rollback_state := RollbackState.Rolledback (state + 1) }).newest_frame := by
              simpa [frameOf] using hlt
            obtain ⟨hb1, hb2⟩ := ih _ b2 tr2 hrec hle1
            exact ⟨hb1, by simp [hb2, hnf2]⟩

/-! ## Claims -/

/-- Claim C1: the spec says that on observing `Rollback(f)` the engine takes
the stored snapshot at ring slot `f % capacity`, installs it as the live
state, empties that slot, and transitions to `Rolledback(f)`.  The code
(src/lib.rs line 225) instead computes the slot as
`newest_frame % capacity`: at the concrete input below (`newest_frame = 2`,
capacity 4, target frame 0) it installs the slot-2 snapshot `(12, 22)` as
the live state and empties slot 2, leaving the slot-0 snapshot `(10, 20)` —
the one the claim says must be installed and emptied — untouched.  The final
transition to `Rolledback 0` does match the claim. -/
theorem claim_C1_code_eval :
    (rollback_restore bufC1 0).map
      (fun b => (b.current_world, b.current_resources, b.past_worlds,
                 b.past_resources, b.rollback_state)) =
    some (12, 22, [some 10, some 11, none, none],
          [some 20, some 21, none, none], RollbackState.Rolledback 0) := by
  decide

/-- Claim C2, counterexample: replaying frame 0 from live world 5 stores the
world snapshot for slot `(0+1) % 4 = 1` with payload 5 — the live world
before the SimulationStep ran — while the step then advances the live world
to 6; the trace also records `storeWorld` strictly before `simStep`.  So the
snapshot for frame `f+1` is built before SimulationStep for frame `f`, not
after it, refuting the claim at this input. -/
theorem claim_C2_counterexample :
    (run_once natCtx bufC2 0).map
      (fun p => (p.1.current_world, p.1.past_worlds, p.2)) =
    some (6, [none, some 5, none, none],
          [REvent.storeResources 1, REvent.storeWorld 1, REvent.simStep 0]) := by
  decide

/-- Claim C2, amended: in every successful `run_once` for frame `f`, the
snapshot for slot `(f+1) % capacity` is built from the live state after the
deferred changes and overrides for frame `f` are applied but before the
SimulationStep for frame `f` runs: the trace ends with the two snapshot
stores followed by the simulation step, and no simulation step precedes
them. -/
theorem claim_C2_amended (ctx : SimCtx W R Op) (buf b : RollbackBuffer W R Op)
    (f : Nat) (tr : List REvent) (h : run_once ctx buf f = some (b, tr)) :
    ∃ pre, tr = pre ++ [REvent.storeResources ((f + 1) % buf.past_resources.length),
                        REvent.storeWorld ((f + 1) % buf.past_resources.length),
                        REvent.simStep f] ∧
      REvent.simStep f ∉ pre := by
  obtain ⟨c, o, htr, hc, -, ho, -, -, -⟩ := run_once_spec h
  refine ⟨c ++ o, by simp [htr], ?_⟩
  rcases hc with hc | hc <;> rcases ho with ho | ho <;> subst hc <;> subst ho <;> simp

/-- Witness for the amended claim C2 at a concrete input. -/
theorem claim_C2_witness :
    ∃ pre, ([REvent.storeResources 0, REvent.storeWorld 0, REvent.simStep 0] :
        List REvent) =
      pre ++ [REvent.storeResources ((0 + 1) % bufU.past_resources.length),
              REvent.storeWorld ((0 + 1) % bufU.past_resources.length),
              REvent.simStep 0] ∧
      REvent.simStep 0 ∉ pre :=
  claim_C2_amended unitCtx bufU bufU 0
    [REvent.storeResources 0, REvent.storeWorld 0, REvent.simStep 0] rfl

/-- One granted tick from any `Rolledback s` state with `s` at most the new
`newest_frame` ends quiescent at `Rolledback (newest_frame + 1)` and
advances `newest_frame` by exactly one. -/
theorem advance_frame_quiescent {ctx : SimCtx W R Op} {buf b : RollbackBuffer W R Op}
    {tr : List REvent} {s : Nat} (hst : buf.rollback_state = RollbackState.Rolledback s)
    (hs : s ≤ buf.newest_frame + 1) (h : advance_frame ctx buf = some (b, tr)) :
    b.rollback_state = RollbackState.Rolledback (b.newest_frame + 1) ∧
    b.newest_frame = buf.newest_frame + 1 := by
  rw [advance_frame, run_rollback] at h
  have hle : frameOf ({ buf with newest_frame := buf.newest_frame + 1 }).rollback_state ≤
      ({ buf with newest_frame := buf.newest_frame + 1 }).newest_frame := by
    simp [hst, frameOf]
    omega
  simpa using run_rollback_loop_final _ _ _ _ h hle

/-- Ticking `n` times from a quiescent state stays quiescent and advances
`newest_frame` by `n`. -/
theorem run_ticks_quiescent {ctx : SimCtx W R Op} :
    ∀ (n : Nat) (buf b : RollbackBuffer W R Op),
    buf.rollback_state = RollbackState.Rolledback (buf.newest_frame + 1) →
    run_ticks ctx n buf = some b →
    b.rollback_state = RollbackState.Rolledback (b.newest_frame + 1) ∧
    b.newest_frame = buf.newest_frame + n := by
  intro n
  induction n with
  | zero =>
    intro buf b hq h
    rw [run_ticks] at h
    injection h with h
    subst h
    exact ⟨hq, rfl⟩
  | succ n ih =>
    intro buf b hq h
    rw [run_ticks] at h
    cases hadv : advance_frame ctx buf with
    | none =>
      rw [hadv] at h
      exact Option.noConfusion h
    | some p =>
      obtain ⟨b1, tr1⟩ := p
      rw [hadv] at h
      obtain ⟨hq1, hn1⟩ := advance_frame_quiescent hq (le_refl _) hadv
      obtain ⟨H1, H2⟩ := ih b1 b hq1 h
      exact ⟨H1, by omega⟩

/-- Claim C3, counterexample: from the freshly initialized engine, one
`advance_frame` with no `schedule_change` ends at `newest_frame = 1` with
state `Rolledback 2`, which differs from the claimed quiescent state
`Rolledback newest_frame = Rolledback 1`. -/
theorem claim_C3_counterexample :
    (run_ticks natCtx 1 bufInit).map (fun b => (b.newest_frame, b.rollback_state)) =
      some (1, RollbackState.Rolledback 2) ∧
    (RollbackState.Rolledback 2 : RollbackState) ≠ RollbackState.Rolledback 1 := by
  decide

/-- Claim C3, amended: for any sequence of at least one `advance_frame` call
with no `schedule_change` in between, started from any `Rolledback s` state
with `s ≤ newest_frame + 1` (the initialized engine starts at
`Rolledback 0`, and every quiescent state satisfies this), after each call
that completes the state is `Rolledback (newest_frame + 1)` — the unique
quiescent condition of the code, whose `Rolledback` argument is the next
frame to simulate — and `newest_frame` has advanced by the number of
calls. -/
theorem claim_C3_amended (ctx : SimCtx W R Op) (buf b : RollbackBuffer W R Op)
    (s n : Nat) (hst : buf.rollback_state = RollbackState.Rolledback s)
    (hs : s ≤ buf.newest_frame + 1) (hn : 1 ≤ n)
    (hrun : run_ticks ctx n buf = some b) :
    b.rollback_state = RollbackState.Rolledback (b.newest_frame + 1) ∧
    b.newest_frame = buf.newest_frame + n := by
  obtain ⟨m, rfl⟩ : ∃ m, n = m + 1 := ⟨n - 1, by omega⟩
  rw [run_ticks] at hrun
  cases hadv : advance_frame ctx buf with
  | none =>
    rw [hadv] at hrun
    exact Option.noConfusion hrun
  | some p =>
    obtain ⟨b1, tr1⟩ := p
    rw [hadv] at hrun
    obtain ⟨hq1, hn1⟩ := advance_frame_quiescent hst hs hadv
    obtain ⟨H1, H2⟩ := run_ticks_quiescent m b1 b hq1 hrun
    exact ⟨H1, by omega⟩

/-- Witness for the amended claim C3: one tick from the initialized
capacity-1 engine over `Unit` state. -/
theorem claim_C3_witness :
    bufUq.rollback_state = RollbackState.Rolledback (bufUq.newest_frame + 1) ∧
    bufUq.newest_frame = bufU.newest_frame + 1 :=
  claim_C3_amended unitCtx bufU bufUq 0 1 rfl (by omega) (by omega) rfl

/-- From a quiescent state (`Rolledback newest_frame`, reached at loop entry
after the tick incremented `newest_frame`), the replay loop is exactly one
`run_once` for `newest_frame` followed by the break: the tick trace is that
single `run_once` trace. -/
theorem loop_quiescent_tick {ctx : SimCtx W R Op} {buf b : RollbackBuffer W R Op}
    {tr : List REvent} {fuel : Nat}
    (hq : buf.rollback_state = RollbackState.Rolledback buf.newest_frame)
    (h : run_rollback_loop ctx (fuel + 1) buf = some (b, tr)) :
    ∃ b2, run_once ctx buf buf.newest_frame = some (b2, tr) := by
  rw [run_rollback_loop] at h
  cases hro : run_once ctx buf buf.newest_frame with
  | none =>
    simp only [hq, hro] at h
    exact Option.noConfusion h
  | some p =>
    obtain ⟨b2, tr1⟩ := p
    have hnf := (run_once_preserves hro).1
    simp only [hq, hro, if_pos (le_of_eq hnf), Option.some_inj] at h
    have h2 := congrArg Prod.snd h
    simp only [] at h2
    subst h2
    exact ⟨b2, rfl⟩

/-- Claim C4, counterexample: the very first `advance_frame` after
initialization carries no pending deferred changes, yet performs two
SimulationStep invocations (for frames 0 and 1): the engine starts at
`Rolledback 0`, meaning frame 0 has not been simulated yet, so the first
tick must catch up through both frames. -/
theorem claim_C4_counterexample :
    (advance_frame natCtx bufInit).map (fun p => countSimSteps p.2) = some 2 ∧
    (2 : Nat) ≠ 1 := by
  decide

/-- Claim C4, amended: every `advance_frame` call made from the quiescent
state `Rolledback (newest_frame + 1)` — i.e. every call after the first,
when no deferred changes are pending so no rewind was scheduled — performs
exactly one SimulationStep invocation; only the first call after
initialization performs two (see the counterexample). -/
theorem claim_C4_amended (ctx : SimCtx W R Op) (buf b : RollbackBuffer W R Op)
    (tr : List REvent)
    (hq : buf.rollback_state = RollbackState.Rolledback (buf.newest_frame + 1))
    (h : advance_frame ctx buf = some (b, tr)) :
    countSimSteps tr = 1 := by
  rw [advance_frame, run_rollback] at h
  rw [show 2 * ({ buf with newest_frame := buf.newest_frame + 1 } :
      RollbackBuffer W R Op).newest_frame + 4 = (2 * buf.newest_frame + 5) + 1
    from by simp; ring] at h
  obtain ⟨b2, hro⟩ := loop_quiescent_tick (by simpa using hq) h
  exact run_once_count hro

/-- Witness for the amended claim C4: the second tick of the capacity-1
`Unit` engine performs exactly one SimulationStep. -/
theorem claim_C4_witness :
    countSimSteps [REvent.storeResources 0, REvent.storeWorld 0, REvent.simStep 2] = 1 :=
  claim_C4_amended unitCtx bufUq bufUq2
    [REvent.storeResources 0, REvent.storeWorld 0, REvent.simStep 2] rfl rfl

/-- Claim C5: every successful `schedule_change(frame, op)` moves the state
from `Rolledback(x)` to `Rollback(frame)` and from `Rollback(cur)` to
`Rollback(min cur frame)` (src/lib.rs lines 404-409). -/
theorem claim_C5 (buf : RollbackBuffer W R Op) (frame : Nat) (op : Op)
    (hfr : frame ≤ buf.newest_frame)
    (hcap : buf.newest_frame - frame < buf.past_worlds.length) :
    ∃ b, past_frame_change buf frame op = some (none, b) ∧
      b.rollback_state =
        (match buf.rollback_state with
         | RollbackState.Rolledback _ => RollbackState.Rollback frame
         | RollbackState.Rollback cur => RollbackState.Rollback (min cur frame)) := by
  simp only [past_frame_change, checkedSub, if_pos hfr, if_neg (not_le.mpr hcap)]
  refine ⟨_, rfl, ?_⟩
  cases hst : buf.rollback_state with
  | Rolledback x => rfl
  | Rollback cur =>
    by_cases hx : frame < cur
    · simp [hx, Nat.min_eq_right (le_of_lt hx)]
    · simp [hx, Nat.min_eq_left (not_lt.mp hx)]

/-- Witness for claim C5, including the earliest-wins scenario: from the
quiescent `Rolledback 6` engine at `newest_frame = 5`, scheduling a change
for frame 5 and then one for frame 3 leaves the state at `Rollback 3`. -/
theorem claim_C5_witness :
    (∃ b, past_frame_change bufC5 3 () = some (none, b) ∧
      b.rollback_state = RollbackState.Rollback (min 5 3)) ∧
    ((past_frame_change bufC5s 5 ()).bind
        (fun p => past_frame_change p.2 3 ())).map
      (fun p => (p.1, p.2.rollback_state)) =
      some (none, RollbackState.Rollback 3) :=
  ⟨claim_C5 bufC5 3 () (by decide) (by decide), by decide⟩

/-- Claim C6: for `frame ≤ newest_frame`, `schedule_change` returns
`FrameTimeout` — with the buffer completely unmutated — exactly when
`newest_frame - frame ≥ capacity` (src/lib.rs lines 393-395). -/
theorem claim_C6 (buf : RollbackBuffer W R Op) (frame : Nat) (op : Op)
    (hfr : frame ≤ buf.newest_frame) :
    past_frame_change buf frame op = some (some RollbackError.FrameTimeout, buf) ↔
      buf.past_worlds.length ≤ buf.newest_frame - frame := by
  constructor
  · intro h
    by_contra hcap
    simp only [past_frame_change, checkedSub, if_pos hfr, if_neg hcap] at h
    simp at h
  · intro hcap
    simp only [past_frame_change, checkedSub, if_pos hfr, if_pos hcap]

/-- Witness for claim C6 at the capacity boundary: with capacity 2 and
`newest_frame = 3`, targeting frame `newest_frame - capacity = 1` fails with
`FrameTimeout` and no mutation, while targeting frame
`newest_frame - capacity + 1 = 2` succeeds. -/
theorem claim_C6_witness :
    (past_frame_change bufC6 1 () = some (some RollbackError.FrameTimeout, bufC6) ↔
      bufC6.past_worlds.length ≤ bufC6.newest_frame - 1) ∧
    (past_frame_change bufC6 1 ()).map (fun p => p.1) =
      some (some RollbackError.FrameTimeout) ∧
    (past_frame_change bufC6 2 ()).map (fun p => p.1) = some none :=
  ⟨claim_C6 bufC6 1 () (by decide), by decide, by decide⟩

/-- Claim C9: calling `schedule_change` with `frame > newest_frame` panics —
`newest_frame - frame` is an unsigned subtraction (src/lib.rs line 393) and
underflows, which under the overflow-checking profile aborts before either
returning `FrameTimeout` or scheduling anything; the operation is total only
when `frame ≤ newest_frame`. -/
theorem claim_C9 (buf : RollbackBuffer W R Op) (frame : Nat) (op : Op)
    (h : buf.newest_frame < frame) :
    past_frame_change buf frame op = none := by
  simp only [past_frame_change, checkedSub, if_neg (not_le.mpr h)]

/-- Witness for claim C9: with `newest_frame = 3`, scheduling a change for
frame 4 panics. -/
theorem claim_C9_witness : past_frame_change bufC6 4 () = none :=
  claim_C9 bufC6 4 () (by decide)

/-- Claim C7: for every frame `f` replayed by a successful `run_once`, the
deferred-change batch (if any) is applied first, then the override functions
are applied — in registration order (a left fold over `resource_override`),
copying from the resource half of the stored snapshot at slot
`f % capacity` into the live resources — and only after that does the
SimulationStep for frame `f` run (the trace places `applyChanges`, then
`applyOverrides`, then — after the snapshot stores — `simStep`). -/
theorem claim_C7 (ctx : SimCtx W R Op) (buf b : RollbackBuffer W R Op)
    (f : Nat) (tr : List REvent) (h : run_once ctx buf f = some (b, tr)) :
    ∃ c o,
      tr = c ++ o ++ [REvent.storeResources ((f + 1) % buf.past_resources.length),
                      REvent.storeWorld ((f + 1) % buf.past_resources.length),
                      REvent.simStep f] ∧
      (c = [] ∨ c = [REvent.applyChanges f]) ∧
      (o = [] ∨ o = [REvent.applyOverrides f (f % buf.past_resources.length)]) ∧
      (buf.resource_override ≠ [] →
        o = [REvent.applyOverrides f (f % buf.past_resources.length)] ∧
        ∃ past, buf.past_resources.get? (f % buf.past_resources.length) =
            some (some past) ∧
          b.current_resources = (ctx.simStep (run_changes ctx buf f).1
            (apply_overrides buf.resource_override (run_changes ctx buf f).2 past)).2) := by
  obtain ⟨c, o, htr, hc, -, ho, hoiff, -, hne⟩ := run_once_spec h
  refine ⟨c, o, htr, hc, ho, ?_⟩
  intro hnonempty
  obtain ⟨past, hsl, -, hres⟩ := hne hnonempty
  exact ⟨hoiff.mpr hnonempty, past, hsl, hres⟩

/-- Witness for claim C7 at a concrete input with a non-empty override
list. -/
theorem claim_C7_witness :
    ∃ c o,
      ([REvent.applyOverrides 0 0, REvent.storeResources 1, REvent.storeWorld 1,
        REvent.simStep 0] : List REvent) =
        c ++ o ++ [REvent.storeResources ((0 + 1) % bufC7.past_resources.length),
                   REvent.storeWorld ((0 + 1) % bufC7.past_resources.length),
                   REvent.simStep 0] ∧
      (c = [] ∨ c = [REvent.applyChanges 0]) ∧
      (o = [] ∨ o = [REvent.applyOverrides 0 (0 % bufC7.past_resources.length)]) ∧
      (bufC7.resource_override ≠ [] →
        o = [REvent.applyOverrides 0 (0 % bufC7.past_resources.length)] ∧
        ∃ past, bufC7.past_resources.get? (0 % bufC7.past_resources.length) =
            some (some past) ∧
          bufC7r.current_resources = (natCtx.simStep (run_changes natCtx bufC7 0).1
            (apply_overrides bufC7.resource_override
              (run_changes natCtx bufC7 0).2 past)).2) :=
  claim_C7 natCtx bufC7 bufC7r 0
    [REvent.applyOverrides 0 0, REvent.storeResources 1, REvent.storeWorld 1,
     REvent.simStep 0] rfl

/-- `track_resource` and `override_resource` both extend `resource_rollback`
by the entry they add; `override_resource` adds the same entry to both
lists.  Hence the containment of the override list in the rollback list is
preserved by any registration. -/
theorem applyTrackOps_invariant :
    ∀ (ops : List (TrackOp R)) (buf : RollbackBuffer W R Op),
    (∀ e, e ∈ buf.resource_override → e ∈ buf.resource_rollback) →
    ∀ e, e ∈ (applyTrackOps buf ops).resource_override →
      e ∈ (applyTrackOps buf ops).resource_rollback := by
  intro ops
  induction ops with
  | nil =>
    intro buf hinv e he
    simp only [applyTrackOps] at he ⊢
    exact hinv e he
  | cons op ops ih =>
    intro buf hinv e he
    simp only [applyTrackOps] at he ⊢
    refine ih _ ?_ e he
    cases op with
    | track t i c =>
      intro x hx
      simp only [track_resource, List.mem_append] at hx ⊢
      exact Or.inl (hinv x hx)
    | over t i c =>
      intro x hx
      simp only [override_resource, List.mem_append] at hx ⊢
      rcases hx with hx | hx
      · exact Or.inl (hinv x hx)
      · exact Or.inr hx

/-- Claim C8: after any sequence of `track_resource` / `override_resource`
registrations on a fresh buffer, every copy-function entry of the override
list is also an entry (same resource type, same copy function) of the
rollback list: a resource type is never overridable without being
tracked. -/
theorem claim_C8 (w0 : W) (r0 : R) (cap : Nat) (ops : List (TrackOp R))
    (e : Nat × (R → R → R))
    (he : e ∈ (applyTrackOps
      (RollbackBuffer.new w0 r0 cap : RollbackBuffer W R Op) ops).resource_override) :
    e ∈ (applyTrackOps
      (RollbackBuffer.new w0 r0 cap : RollbackBuffer W R Op) ops).resource_rollback :=
  applyTrackOps_invariant ops _ (by simp [RollbackBuffer.new]) e he

/-- Witness for claim C8: one `override_resource` registration on a fresh
`Unit` buffer. -/
theorem claim_C8_witness :
    ((0, fun _ s => s) : Nat × (Unit → Unit → Unit)) ∈
      (applyTrackOps (RollbackBuffer.new () () 1 : RollbackBuffer Unit Unit Unit)
        [TrackOp.over 0 (fun r => r) (fun _ s => s)]).resource_rollback :=
  claim_C8 () () 1 [TrackOp.over 0 (fun r => r) (fun _ s => s)]
    (0, fun _ s => s) (List.Mem.head [])

/-- Claim C10: with an empty ring (`buffer_size = 0`) every replay and every
snapshot-store operation panics — each computes `state % ring.len()` (or
`newest_frame % ring.len()`), a remainder by zero: `run_once`, both store
functions, the restore arm, and the whole replay loop all abort.  The
engine's operations are thus well-defined only under the unstated
precondition `buffer_size ≥ 1`. -/
theorem claim_C10 (ctx : SimCtx W R Op) (buf : RollbackBuffer W R Op) (s : Nat)
    (hr : buf.past_resources.length = 0) (hw : buf.past_worlds.length = 0) :
    run_once ctx buf s = none ∧ store_new_resources ctx buf s = none ∧
    store_new_world ctx buf s = none ∧ rollback_restore buf s = none ∧
    run_rollback ctx buf = none := by
  refine ⟨?_, ?_, ?_, ?_, ?_⟩
  · rw [run_once, if_pos hr]
  · rw [store_new_resources, if_pos hr]
  · rw [store_new_world, if_pos hr]
  · rw [rollback_restore, if_pos hw]
  · rw [run_rollback,
      show 2 * buf.newest_frame + 4 = (2 * buf.newest_frame + 3) + 1 from rfl,
      run_rollback_loop]
    cases hst : buf.rollback_state with
    | Rollback st => simp [hst, rollback_restore, hw]
    | Rolledback st => simp [hst, run_once, hr]

/-- Witness for claim C10 at the concrete zero-capacity buffer. -/
theorem claim_C10_witness :
    run_once unitCtx bufZ 5 = none ∧ store_new_resources unitCtx bufZ 5 = none ∧
    store_new_world unitCtx bufZ 5 = none ∧ rollback_restore bufZ 5 = none ∧
    run_rollback unitCtx bufZ = none :=
  claim_C10 unitCtx bufZ 5 rfl rfl

end BevyRollback
